import Mathlib

/-!
Verification of the schema-to-signature derivation engine
(`tools/codegen/api/types.py`): C++ / dispatcher / native signature
objects derived from a normalized function schema.

The data classes of `types.py` are embedded directly.  The helper
modules `cpp`, `dispatcher` and `native` (and the schema model) are
only imported by `types.py` and are not part of the excerpt, so the
few functions of theirs that `types.py` calls are modelled from the
specification, each marked `Modelled from the spec:` in its doc
comment.
-/

namespace Codegen

/-- Modelled from the spec: the role tag carried by a schema `Argument`
(`tools.codegen.model` is outside the excerpt).  The four resource-options
roles are precision-kind (`dtype`), layout-kind, device-kind and the
pinned flag; every other argument is `plain`. -/
inductive Role where
  | plain
  | dtype
  | layout
  | device
  | pin_memory
deriving DecidableEq, Repr

/-- Modelled from the spec: a schema argument (`tools.codegen.model.Argument`
is outside the excerpt): name, opaque type descriptor, optional default
literal, role tag. -/
structure Argument where
  name : String
  type : String
  default : Option String
  role : Role
deriving DecidableEq, Repr

/-- Modelled from the spec: a schema return (`tools.codegen.model.Return`
is outside the excerpt): an opaque type descriptor. -/
structure Ret where
  type : String
deriving DecidableEq, Repr

/-- Modelled from the spec: a normalized operator schema
(`tools.codegen.model.FunctionSchema` is outside the excerpt): name,
ordered arguments, ordered returns. -/
structure FunctionSchema where
  name : String
  arguments : List Argument
  returns : List Ret
deriving DecidableEq, Repr

/-- Source `ThisArgument`: the implicit receiver argument for method calls. -/
structure ThisArgument where
  argument : Argument
deriving DecidableEq, Repr

/-- Source `TensorOptionsArguments`: the bundle of the four arguments that
collectively represent a TensorOptions. -/
structure TensorOptionsArguments where
  dtype : Argument
  layout : Argument
  device : Argument
  pin_memory : Argument
deriving DecidableEq, Repr

/-- Source `TensorOptionsArguments.all`. -/
def TensorOptionsArguments.all (t : TensorOptionsArguments) : List Argument :=
  [t.dtype, t.layout, t.device, t.pin_memory]

/-- The `Union[Argument, TensorOptionsArguments]` back-reference type. -/
abbrev ArgSource := Argument ⊕ TensorOptionsArguments

/-- Source `CppArgument`: a single formal of the C++ API. -/
structure CppArgument where
  type : String
  name : String
  default : Option String
  argument : ArgSource
deriving DecidableEq, Repr

/-- The `=<default>` suffix used by `CppArgument.__str__`. -/
def mbDefault : Option String → String
  | some d => "=" ++ d
  | none => ""

/-- Source `CppArgument.__str__`: the most elaborated form of the formal. -/
def CppArgument.str (a : CppArgument) : String :=
  a.type ++ " " ++ a.name ++ mbDefault a.default

/-- Source `CppArgument.no_default`: a copy with the default removed. -/
def CppArgument.no_default (a : CppArgument) : CppArgument :=
  { type := a.type, name := a.name, default := none, argument := a.argument }

/-- Source `CppArgument.str_no_default`. -/
def CppArgument.str_no_default (a : CppArgument) : String :=
  a.type ++ " " ++ a.name

/-- The closed union `CppArgumentPack` of `CppSingleArgumentPack`,
`CppThisArgumentPack` and `CppTensorOptionsArgumentPack`. -/
inductive CppArgumentPack where
  | single (a : CppArgument)
  | thisP (argument : ThisArgument) (type : String)
  | tensorOpts (argument : TensorOptionsArguments)
      (dtype layout device pin_memory : CppArgument)
deriving DecidableEq, Repr

/-- Source `no_default` on each pack variant: strips the default of a single
pack, leaves a this pack unchanged (never defaulted), and strips the
defaults of each of the four constituents of a TensorOptions pack. -/
def CppArgumentPack.no_default : CppArgumentPack → CppArgumentPack
  | .single a => .single a.no_default
  | .thisP t ty => .thisP t ty
  | .tensorOpts arg d l dv p =>
      .tensorOpts arg d.no_default l.no_default dv.no_default p.no_default

/-- Source `explicit_arguments` on each pack variant: a single pack contributes
its one argument, a this pack contributes nothing (the receiver is
implicit), a TensorOptions pack flattens into its four constituents. -/
def CppArgumentPack.explicit_arguments : CppArgumentPack → List CppArgument
  | .single a => [a]
  | .thisP _ _ => []
  | .tensorOpts _ d l dv p => [d, l, dv, p]

/-- Source `CppSignature`: one C++ overload derived from a schema. -/
structure CppSignature where
  func : FunctionSchema
  argument_packs : List CppArgumentPack
  returns_type : String
deriving DecidableEq, Repr

/-- Source `CppSignature.arguments`: the unpacked explicit-argument view. -/
def CppSignature.arguments (s : CppSignature) : List CppArgument :=
  (s.argument_packs.map CppArgumentPack.explicit_arguments).flatten

/-- Modelled from the spec: `cpp.name` (in `tools.codegen.api.cpp`,
outside the excerpt) renders the C++ name of a schema; rendering is
opaque here, so it is the schema name itself. -/
def cppName (f : FunctionSchema) : String := f.name

/-- Modelled from the spec: `cpp.returns_type` / `dispatcher.returns_type`
/ `native.returns_type` (outside the excerpt) render the C++ returns
type; a single return renders as its descriptor, otherwise a tuple. -/
def returnsType : List Ret → String
  | [r] => r.type
  | rs => "::std::tuple<" ++ String.intercalate "," (rs.map Ret.type) ++ ">"

/-- Source `CppSignature.decl`: the C++ declaration, defaults included. -/
def CppSignature.decl (s : CppSignature) : String :=
  s.returns_type ++ " " ++ cppName s.func ++ "(" ++
    String.intercalate ", " (s.arguments.map CppArgument.str) ++ ")"

/-- Source `CppSignature.defn`: the C++ definition head, defaults omitted;
an explicit name is used verbatim, otherwise the prefix string is
prepended to the schema-derived name. -/
def CppSignature.defn (s : CppSignature) (name : Option String)
    (pre : String) : String :=
  let cpp_args_str := String.intercalate ", " (s.arguments.map CppArgument.str_no_default)
  let n := match name with
    | none => pre ++ cppName s.func
    | some n => n
  s.returns_type ++ " " ++ n ++ "(" ++ cpp_args_str ++ ")"

/-- The grouped-argument union
`Union[Argument, TensorOptionsArguments, ThisArgument]` produced by the
argument grouper and consumed by `CppSignature._from_grouped_arguments`. -/
inductive GroupedArgument where
  | arg (a : Argument)
  | thisArg (t : ThisArgument)
  | options (t : TensorOptionsArguments)
deriving DecidableEq, Repr

/-- Whether a grouped argument is the resource-options bundle (the
`isinstance(a, TensorOptionsArguments)` test of `from_schema`). -/
def GroupedArgument.isOptions : GroupedArgument → Bool
  | .options _ => true
  | _ => false

/-- Modelled from the spec: the error kinds of the argument grouper
(`tools.codegen.api.cpp` is outside the excerpt): a method schema with
no receiver candidate, and a partial (1-3 of 4) resource-options group. -/
inductive GroupError where
  | SchemaInvariantViolation
  | PartialResourceOptionsGroup
deriving DecidableEq, Repr

/-- The first argument carrying a given role, if any. -/
def findRole (args : List Argument) (r : Role) : Option Argument :=
  args.find? (fun a => a.role == r)

/-- Whether some argument carries a given role. -/
def hasRole (args : List Argument) (r : Role) : Bool :=
  args.any (fun a => a.role == r)

/-- How many of the four resource-options roles are present. -/
def presentRoleCount (args : List Argument) : Nat :=
  (if hasRole args .dtype then 1 else 0) +
  (if hasRole args .layout then 1 else 0) +
  (if hasRole args .device then 1 else 0) +
  (if hasRole args .pin_memory then 1 else 0)

/-- The list with the first argument of each resource-options role
removed (the arguments absorbed into the bundle). -/
def eraseRoles (args : List Argument) : List Argument :=
  ((((args.eraseP (fun a => a.role == Role.dtype)).eraseP
      (fun a => a.role == Role.layout)).eraseP
      (fun a => a.role == Role.device)).eraseP
      (fun a => a.role == Role.pin_memory))

/-- Modelled from the spec: the resource-options grouping step of
`cpp.group_arguments` (outside the excerpt).  A bundle forms iff all
four roles are present, regardless of position; partial presence (1-3
roles) is a `PartialResourceOptionsGroup` error, never a silent
fallback; with no role present the list stays flat. -/
def groupCore (args : List Argument) : Except GroupError (List GroupedArgument) :=
  match findRole args .dtype, findRole args .layout,
        findRole args .device, findRole args .pin_memory with
  | some d, some l, some dv, some p =>
      .ok ((eraseRoles args).map GroupedArgument.arg ++
            [GroupedArgument.options ⟨d, l, dv, p⟩])
  | none, none, none, none => .ok (args.map GroupedArgument.arg)
  | _, _, _, _ => .error .PartialResourceOptionsGroup

/-- Modelled from the spec: `cpp.group_arguments` (outside the excerpt).
For a method schema the first argument is marked as the receiver — a
method schema with no argument is a `SchemaInvariantViolation` — and
the rest is grouped; otherwise the whole argument list is grouped. -/
def group_arguments (func : FunctionSchema) (method : Bool) :
    Except GroupError (List GroupedArgument) :=
  match method, func.arguments with
  | false, _ => groupCore func.arguments
  | true, [] => .error .SchemaInvariantViolation
  | true, a :: rest =>
      match groupCore rest with
      | .error e => .error e
      | .ok gs => .ok (GroupedArgument.thisArg ⟨a⟩ :: gs)

/-- The arguments a grouping step actually grouped: the schema arguments
without the receiver for a method schema, the whole list otherwise. -/
def restArguments (func : FunctionSchema) (method : Bool) : List Argument :=
  match method with
  | true => func.arguments.tail
  | false => func.arguments

/-- The (name, type) pair the receiver contributes alongside the front
surface's explicit arguments: the first schema argument when is-method
is set, nothing otherwise. -/
def recvList (func : FunctionSchema) (method : Bool) : List (String × String) :=
  match method, func.arguments with
  | true, a :: _ => [(a.name, a.type)]
  | _, _ => []

/-- The `CppArgument` derived from one plain schema argument; rendering
of the opaque type descriptor is the identity here. -/
def cppArgumentOfPlain (a : Argument) : CppArgument :=
  { type := a.type, name := a.name, default := a.default, argument := .inl a }

/-- Modelled from the spec: in default mode the bundle becomes one
composite formal of TensorOptions type named `options`, whose default
is present only if every one of the four underlying arguments has a
default (`cpp.argument` is outside the excerpt). -/
def tensorOptionsCppArgument (t : TensorOptionsArguments) : CppArgument :=
  { type := "const TensorOptions &", name := "options",
    default := if t.all.all (fun a => a.default.isSome) then some "\x7b\x7d" else none,
    argument := .inr t }

/-- Modelled from the spec: `cpp.argument` (outside the excerpt), the
default-mode packing: a plain argument lifts to a single pack, the
receiver to a this pack, the bundle to a single composite pack. -/
def cppArgument : GroupedArgument → CppArgumentPack
  | .arg a => .single (cppArgumentOfPlain a)
  | .thisArg t => .thisP t t.argument.type
  | .options t => .single (tensorOptionsCppArgument t)

/-- Modelled from the spec: `cpp.argument_faithful` (outside the
excerpt), the faithful-mode packing: like `cppArgument` except that the
bundle stays exploded as a TensorOptions pack of its four constituents. -/
def cppArgumentFaithful : GroupedArgument → CppArgumentPack
  | .arg a => .single (cppArgumentOfPlain a)
  | .thisArg t => .thisP t t.argument.type
  | .options t => .tensorOpts t (cppArgumentOfPlain t.dtype)
      (cppArgumentOfPlain t.layout) (cppArgumentOfPlain t.device)
      (cppArgumentOfPlain t.pin_memory)

/-- Source `CppSignature._from_grouped_arguments`: the faithful mode ungroups
the packs and drops every default (overload disambiguation); the
default mode packs each grouped argument as is. -/
def CppSignature.from_grouped_arguments (func : FunctionSchema)
    (arguments : List GroupedArgument) (faithful : Bool) : CppSignature :=
  match faithful with
  | true =>
    { func := func,
      argument_packs := arguments.map (fun a => (cppArgumentFaithful a).no_default),
      returns_type := returnsType func.returns }
  | false =>
    { func := func,
      argument_packs := arguments.map cppArgument,
      returns_type := returnsType func.returns }

/-- Source `CppSignatureGroup`: the default signature and the optional
faithful signature of a schema. -/
structure CppSignatureGroup where
  func : FunctionSchema
  signature : CppSignature
  faithful_signature : Option CppSignature
deriving DecidableEq, Repr

/-- Source `CppSignatureGroup.from_schema`: groups the arguments once, builds
the faithful signature only when a bundle formed, always builds the
default signature. -/
def CppSignatureGroup.from_schema (func : FunctionSchema) (method : Bool) :
    Except GroupError CppSignatureGroup :=
  match group_arguments func method with
  | .error e => .error e
  | .ok grouped_arguments =>
      .ok { func := func,
            signature := CppSignature.from_grouped_arguments func grouped_arguments false,
            faithful_signature :=
              if grouped_arguments.any GroupedArgument.isOptions then
                some (CppSignature.from_grouped_arguments func grouped_arguments true)
              else none }

/-- Source `DispatcherArgument`: flat, never defaulted. -/
structure DispatcherArgument where
  type : String
  name : String
  argument : ArgSource
deriving DecidableEq, Repr

/-- Source `DispatcherArgument.__str__`: always `<type> <name>`, no default. -/
def DispatcherArgument.str (a : DispatcherArgument) : String :=
  a.type ++ " " ++ a.name

/-- Modelled from the spec: `native.name` (outside the excerpt), the
schema-derived default definition name of the dispatcher surface. -/
def nativeName (f : FunctionSchema) : String := f.name

/-- Modelled from the spec: `dispatcher.name` (outside the excerpt),
the schema-derived default definition name of the native surface. -/
def dispatcherName (f : FunctionSchema) : String := f.name

/-- Source `DispatcherSignature`. -/
structure DispatcherSignature where
  func : FunctionSchema
  arguments : List DispatcherArgument
  returns_type : String
deriving DecidableEq, Repr

/-- Source `DispatcherSignature.defn`. -/
def DispatcherSignature.defn (s : DispatcherSignature)
    (name : Option String) : String :=
  let args_str := String.intercalate ", " (s.arguments.map DispatcherArgument.str)
  let n := match name with
    | none => nativeName s.func
    | some n => n
  s.returns_type ++ " " ++ n ++ "(" ++ args_str ++ ")"

/-- Source `DispatcherSignature.type`: the C++ function type descriptor. -/
def DispatcherSignature.type (s : DispatcherSignature) : String :=
  let dispatcher_args_types_str :=
    String.intercalate ", " (s.arguments.map DispatcherArgument.type)
  s.returns_type ++ " (" ++ dispatcher_args_types_str ++ ")"

/-- Modelled from the spec: `dispatcher.arguments` (outside the
excerpt) flattens the raw schema directly, receiver included, and
strips every default. -/
def dispatcherArguments (func : FunctionSchema) : List DispatcherArgument :=
  func.arguments.map (fun a => { type := a.type, name := a.name, argument := .inl a })

/-- Source `DispatcherSignature.from_schema`. -/
def DispatcherSignature.from_schema (func : FunctionSchema) : DispatcherSignature :=
  { func := func,
    arguments := dispatcherArguments func,
    returns_type := returnsType func.returns }

/-- Source `NativeArgument`: flat, default retained. -/
structure NativeArgument where
  type : String
  name : String
  default : Option String
  argument : ArgSource
deriving DecidableEq, Repr

/-- Source `NativeArgument.__str__`: the default is omitted. -/
def NativeArgument.str (a : NativeArgument) : String :=
  a.type ++ " " ++ a.name

/-- Source `NativeArgument.str_with_default`: the stored default attached. -/
def NativeArgument.str_with_default (a : NativeArgument) : String :=
  a.type ++ " " ++ a.name ++ mbDefault a.default

/-- Source `NativeSignature`. -/
structure NativeSignature where
  func : FunctionSchema
  arguments : List NativeArgument
  returns_type : String
deriving DecidableEq, Repr

/-- Source `NativeSignature.defn`: joins the default-free argument renderings. -/
def NativeSignature.defn (s : NativeSignature)
    (name : Option String) : String :=
  let args_str := String.intercalate ", " (s.arguments.map NativeArgument.str)
  let n := match name with
    | none => dispatcherName s.func
    | some n => n
  s.returns_type ++ " " ++ n ++ "(" ++ args_str ++ ")"

/-- Modelled from the spec: `native.arguments` (outside the excerpt)
flattens the raw schema directly, receiver included, retaining each
argument's original default. -/
def nativeArguments (func : FunctionSchema) : List NativeArgument :=
  func.arguments.map (fun a =>
    { type := a.type, name := a.name, default := a.default, argument := .inl a })

/-- Source `NativeSignature.from_schema`. -/
def NativeSignature.from_schema (func : FunctionSchema) : NativeSignature :=
  { func := func,
    arguments := nativeArguments func,
    returns_type := returnsType func.returns }

section ConcreteInputs

/-- A plain boolean schema argument used in concrete instantiations. -/
def exArgBool : Argument := { name := "x", type := "bool", default := none, role := .plain }

/-- A one-argument schema with an `int` return used in concrete
instantiations. -/
def exFuncBool : FunctionSchema :=
  { name := "f", arguments := [exArgBool], returns := [{ type := "int" }] }

/-- Concrete precision-kind (dtype) argument. -/
def argD : Argument := { name := "dtype", type := "ScalarType?", default := none, role := .dtype }

/-- Concrete layout-kind argument. -/
def argL : Argument := { name := "layout", type := "Layout?", default := none, role := .layout }

/-- Concrete device-kind argument. -/
def argDv : Argument := { name := "device", type := "Device?", default := none, role := .device }

/-- Concrete pinned-flag argument. -/
def argP : Argument := { name := "pin_memory", type := "bool?", default := none, role := .pin_memory }

/-- A schema in which all four resource-options roles are present. -/
def exFuncOpts : FunctionSchema :=
  { name := "zeros", arguments := [argD, argL, argDv, argP], returns := [{ type := "Tensor" }] }

/-- A schema in which exactly two resource-options roles are present. -/
def exFuncPartial : FunctionSchema :=
  { name := "bad", arguments := [argD, argL], returns := [{ type := "Tensor" }] }

/-- A method schema: receiver, one plain argument, all four roles. -/
def exFuncMethod : FunctionSchema :=
  { name := "foo",
    arguments :=
      [{ name := "self", type := "Value", default := none, role := .plain },
       { name := "n", type := "int", default := none, role := .plain },
       argD, argL, argDv, argP],
    returns := [{ type := "Value" }] }

end ConcreteInputs

/-- A concrete signature group: the one `from_schema` produces for the
one-argument schema with no resource-options role. -/
def exGroupBool : CppSignatureGroup :=
  { func := exFuncBool,
    signature :=
      { func := exFuncBool,
        argument_packs := [CppArgumentPack.single (cppArgumentOfPlain exArgBool)],
        returns_type := "int" },
    faithful_signature := none }

section GroupingLemmas

/-- A role is present exactly when `findRole` finds a carrier. -/
theorem hasRole_eq (args : List Argument) (r : Role) :
    hasRole args r = (findRole args r).isSome := by
  induction args with
  | nil => rfl
  | cons b t ih =>
    cases hb : (b.role == r) with
    | false =>
        rw [hasRole, List.any_cons, hb, Bool.false_or, findRole,
          @List.find?_cons_of_neg _ (fun a => a.role == r) b t (by simp [hb])]
        exact ih
    | true =>
        rw [hasRole, List.any_cons, hb, Bool.true_or, findRole,
          @List.find?_cons_of_pos _ (fun a => a.role == r) b t hb]
        rfl

/-- The first match of a predicate heads a permutation of the list with
that match erased. -/
theorem perm_cons_eraseP {l : List Argument} {p : Argument → Bool} {a : Argument}
    (h : l.find? p = some a) : l.Perm (a :: l.eraseP p) := by
  induction l with
  | nil => simp at h
  | cons b t ih =>
    cases hb : p b with
    | true =>
        rw [List.find?_cons_of_pos _ hb] at h
        cases h
        rw [List.eraseP_cons_of_pos hb]
    | false =>
        rw [List.find?_cons_of_neg _ (by simp [hb])] at h
        rw [List.eraseP_cons_of_neg (by simp [hb])]
        exact ((ih h).cons b).trans (List.Perm.swap a b _)

/-- Erasing by a predicate the first match does not satisfy leaves the
first match of another predicate in place. -/
theorem find?_eraseP {l : List Argument} {p q : Argument → Bool} {x : Argument}
    (h : l.find? q = some x) (hx : p x = false) :
    (l.eraseP p).find? q = some x := by
  induction l with
  | nil => simp at h
  | cons b t ih =>
    cases hqb : q b with
    | true =>
        rw [List.find?_cons_of_pos _ hqb] at h
        cases h
        rw [List.eraseP_cons_of_neg (by simp [hx])]
        rw [List.find?_cons_of_pos _ hqb]
    | false =>
        rw [List.find?_cons_of_neg _ (by simp [hqb])] at h
        cases hpb : p b with
        | true =>
            rw [List.eraseP_cons_of_pos hpb]
            exact h
        | false =>
            rw [List.eraseP_cons_of_neg (by simp [hpb])]
            rw [List.find?_cons_of_neg _ (by simp [hqb])]
            exact ih h

/-- With no resource-options role present, none of the four roles has a
carrier. -/
theorem count_zero {args : List Argument} (hc : presentRoleCount args = 0) :
    findRole args Role.dtype = none ∧ findRole args Role.layout = none ∧
    findRole args Role.device = none ∧ findRole args Role.pin_memory = none := by
  rw [presentRoleCount, hasRole_eq, hasRole_eq, hasRole_eq, hasRole_eq] at hc
  cases h1 : findRole args Role.dtype <;> cases h2 : findRole args Role.layout <;>
    cases h3 : findRole args Role.device <;> cases h4 : findRole args Role.pin_memory <;>
    simp_all

/-- With all four resource-options roles present, each role has a
carrier. -/
theorem count_four {args : List Argument} (hc : presentRoleCount args = 4) :
    (findRole args Role.dtype).isSome = true ∧
    (findRole args Role.layout).isSome = true ∧
    (findRole args Role.device).isSome = true ∧
    (findRole args Role.pin_memory).isSome = true := by
  rw [presentRoleCount, hasRole_eq, hasRole_eq, hasRole_eq, hasRole_eq] at hc
  cases h1 : findRole args Role.dtype <;> cases h2 : findRole args Role.layout <;>
    cases h3 : findRole args Role.device <;> cases h4 : findRole args Role.pin_memory <;>
    simp_all

/-- With every role found, `groupCore` bundles the four carriers and
keeps the rest flat. -/
theorem groupCore_of_all_some {args : List Argument} {d l dv p : Argument}
    (hd : findRole args Role.dtype = some d) (hl : findRole args Role.layout = some l)
    (hdv : findRole args Role.device = some dv)
    (hp : findRole args Role.pin_memory = some p) :
    groupCore args = .ok ((eraseRoles args).map GroupedArgument.arg ++
      [GroupedArgument.options ⟨d, l, dv, p⟩]) := by
  rw [groupCore, hd, hl, hdv, hp]

/-- With no role found, `groupCore` keeps the whole list flat. -/
theorem groupCore_of_all_none {args : List Argument}
    (hd : findRole args Role.dtype = none) (hl : findRole args Role.layout = none)
    (hdv : findRole args Role.device = none)
    (hp : findRole args Role.pin_memory = none) :
    groupCore args = .ok (args.map GroupedArgument.arg) := by
  rw [groupCore, hd, hl, hdv, hp]

/-- With 1–3 roles present, `groupCore` fails with
`PartialResourceOptionsGroup`. -/
theorem groupCore_partial {args : List Argument}
    (h1 : 1 ≤ presentRoleCount args) (h3 : presentRoleCount args ≤ 3) :
    groupCore args = .error GroupError.PartialResourceOptionsGroup := by
  rw [presentRoleCount, hasRole_eq, hasRole_eq, hasRole_eq, hasRole_eq] at h1 h3
  cases hd : findRole args Role.dtype <;> cases hl : findRole args Role.layout <;>
    cases hdv : findRole args Role.device <;> cases hp : findRole args Role.pin_memory <;>
    simp_all [groupCore]

/-- On a successful grouping, a bundle is in the output exactly when
all four roles were present, and never when none was. -/
theorem groupCore_any_iff {args : List Argument} {ga : List GroupedArgument}
    (h : groupCore args = .ok ga) :
    (ga.any GroupedArgument.isOptions = true ↔ presentRoleCount args = 4) ∧
    (presentRoleCount args = 0 → ga.any GroupedArgument.isOptions = false) := by
  rw [presentRoleCount, hasRole_eq, hasRole_eq, hasRole_eq, hasRole_eq]
  cases hd : findRole args Role.dtype <;> cases hl : findRole args Role.layout <;>
    cases hdv : findRole args Role.device <;> cases hp : findRole args Role.pin_memory <;>
    first
      | (rw [groupCore_of_all_none hd hl hdv hp] at h; injection h with h; subst h;
         simp [GroupedArgument.isOptions, List.any_append, List.any_map, Function.comp])
      | (rw [groupCore_of_all_some hd hl hdv hp] at h; injection h with h; subst h;
         simp [GroupedArgument.isOptions, List.any_append, List.any_map, Function.comp])
      | (rw [groupCore, hd, hl, hdv, hp] at h; simp at h)

/-- Source `group_arguments` version of `groupCore_any_iff`, counting roles
among the grouped (non-receiver) arguments. -/
theorem group_arguments_any_iff {func : FunctionSchema} {method : Bool}
    {ga : List GroupedArgument} (h : group_arguments func method = .ok ga) :
    (ga.any GroupedArgument.isOptions = true ↔
      presentRoleCount (restArguments func method) = 4) ∧
    (presentRoleCount (restArguments func method) = 0 →
      ga.any GroupedArgument.isOptions = false) := by
  obtain ⟨fname, fargs, frets⟩ := func
  cases method with
  | false => exact groupCore_any_iff h
  | true =>
      cases fargs with
      | nil => simp [group_arguments] at h
      | cons a rest =>
          simp only [group_arguments] at h
          cases hgc : groupCore rest with
          | error e => rw [hgc] at h; simp at h
          | ok gs =>
              rw [hgc] at h
              simp only [Except.ok.injEq] at h
              subst h
              have hiff := groupCore_any_iff hgc
              simpa [GroupedArgument.isOptions, restArguments] using hiff

/-- Source `recvList` on a non-method schema is empty. -/
theorem recvList_false (f : FunctionSchema) : recvList f false = [] := rfl

/-- Source `recvList` on a method schema is the first argument's pair. -/
theorem recvList_true_cons (fname : String) (a : Argument) (rest : List Argument)
    (frets : List Ret) :
    recvList ⟨fname, a :: rest, frets⟩ true = [(a.name, a.type)] := rfl

/-- Flattening singleton blocks is just mapping. -/
theorem flatten_singletons {α β : Type} (f : α → β) (l : List α) :
    (l.map (fun a => [f a])).flatten = l.map f := by
  induction l with
  | nil => rfl
  | cons b t ih => simp [ih]

/-- When all four roles are found, the original list is a permutation
of the four carriers followed by the remainder: no argument is lost or
duplicated by bundling. -/
theorem perm_roles (args : List Argument) (d l dv p : Argument)
    (hd : findRole args Role.dtype = some d) (hl : findRole args Role.layout = some l)
    (hdv : findRole args Role.device = some dv)
    (hp : findRole args Role.pin_memory = some p) :
    args.Perm (d :: l :: dv :: p :: eraseRoles args) := by
  have hlr : l.role = Role.layout := by simpa using List.find?_some hl
  have hdvr : dv.role = Role.device := by simpa using List.find?_some hdv
  have hpr : p.role = Role.pin_memory := by simpa using List.find?_some hp
  have h1 : args.Perm (d :: args.eraseP (fun a => a.role == Role.dtype)) :=
    perm_cons_eraseP hd
  have hl1 : (args.eraseP (fun a => a.role == Role.dtype)).find?
      (fun a => a.role == Role.layout) = some l :=
    find?_eraseP hl (by simp [hlr])
  have h2 := perm_cons_eraseP hl1
  have hdv1 : ((args.eraseP (fun a => a.role == Role.dtype)).eraseP
      (fun a => a.role == Role.layout)).find? (fun a => a.role == Role.device) = some dv :=
    find?_eraseP (find?_eraseP hdv (by simp [hdvr])) (by simp [hdvr])
  have h3 := perm_cons_eraseP hdv1
  have hp1 : (((args.eraseP (fun a => a.role == Role.dtype)).eraseP
      (fun a => a.role == Role.layout)).eraseP (fun a => a.role == Role.device)).find?
      (fun a => a.role == Role.pin_memory) = some p :=
    find?_eraseP (find?_eraseP (find?_eraseP hp (by simp [hpr])) (by simp [hpr]))
      (by simp [hpr])
  have h4 := perm_cons_eraseP hp1
  exact h1.trans ((h2.trans ((h3.trans (h4.cons dv)).cons l)).cons d)

/-- The default-mode signature over flat grouped arguments exposes each
plain argument once. -/
theorem default_args_of_map_arg (func : FunctionSchema) (X : List Argument) :
    (CppSignature.from_grouped_arguments func (X.map GroupedArgument.arg) false).arguments =
      X.map cppArgumentOfPlain := by
  induction X with
  | nil => rfl
  | cons b tl ih =>
      simp only [CppSignature.from_grouped_arguments, CppSignature.arguments,
        List.map_cons, List.flatten_cons] at ih ⊢
      rw [ih]
      rfl

/-- The faithful-mode signature over flat grouped arguments followed by
a bundle exposes each plain argument and the four constituents, all
default-stripped. -/
theorem faithful_args_of_map_arg (func : FunctionSchema) (X : List Argument)
    (t : TensorOptionsArguments) :
    (CppSignature.from_grouped_arguments func
        (X.map GroupedArgument.arg ++ [GroupedArgument.options t]) true).arguments =
      X.map (fun b => (cppArgumentOfPlain b).no_default) ++
        [(cppArgumentOfPlain t.dtype).no_default, (cppArgumentOfPlain t.layout).no_default,
         (cppArgumentOfPlain t.device).no_default,
         (cppArgumentOfPlain t.pin_memory).no_default] := by
  induction X with
  | nil => rfl
  | cons b tl ih =>
      simp only [CppSignature.from_grouped_arguments, CppSignature.arguments,
        List.map_cons, List.cons_append, List.flatten_cons] at ih ⊢
      rw [ih]
      rfl

/-- A receiver pack at the head contributes nothing to the explicit
arguments, in either mode. -/
theorem from_grouped_this_cons (func : FunctionSchema) (t : ThisArgument)
    (ga : List GroupedArgument) (b : Bool) :
    (CppSignature.from_grouped_arguments func (GroupedArgument.thisArg t :: ga) b).arguments =
      (CppSignature.from_grouped_arguments func ga b).arguments := by
  cases b <;>
    simp [CppSignature.from_grouped_arguments, CppSignature.arguments,
      cppArgument, cppArgumentFaithful, CppArgumentPack.no_default,
      CppArgumentPack.explicit_arguments]

end GroupingLemmas

/-- C1: `CppSignatureGroup.from_schema` always builds the default
signature from the grouped arguments; the faithful signature is present
iff the grouped sequence contains a resource-options bundle, which
happens iff all four roles are present among the grouped arguments; it
is absent when no role is present; and with 1–3 roles present
construction fails with `PartialResourceOptionsGroup`. -/
theorem cppSignatureGroup_faithful_existence (func : FunctionSchema) (method : Bool) :
    (∀ g, CppSignatureGroup.from_schema func method = Except.ok g →
      ∃ ga, group_arguments func method = Except.ok ga ∧
        g.signature = CppSignature.from_grouped_arguments func ga false ∧
        (g.faithful_signature.isSome = true ↔
          ga.any GroupedArgument.isOptions = true) ∧
        (presentRoleCount (restArguments func method) = 0 →
          g.faithful_signature = none) ∧
        (presentRoleCount (restArguments func method) = 4 →
          g.faithful_signature.isSome = true)) ∧
    (1 ≤ presentRoleCount (restArguments func method) →
      presentRoleCount (restArguments func method) ≤ 3 →
      CppSignatureGroup.from_schema func method =
        Except.error GroupError.PartialResourceOptionsGroup) := by
  constructor
  · intro g hg
    cases hga : group_arguments func method with
    | error e => simp [CppSignatureGroup.from_schema, hga] at hg
    | ok ga =>
        simp only [CppSignatureGroup.from_schema, hga, Except.ok.injEq] at hg
        subst hg
        obtain ⟨hiff4, h0⟩ := group_arguments_any_iff hga
        refine ⟨ga, rfl, rfl, ?_, ?_, ?_⟩
        · cases hany : ga.any GroupedArgument.isOptions <;> simp [hany]
        · intro hc0
          simp [h0 hc0]
        · intro hc4
          simp [hiff4.mpr hc4]
  · intro h1 h3
    obtain ⟨fname, fargs, frets⟩ := func
    cases method with
    | false =>
        have hgc : groupCore fargs = .error GroupError.PartialResourceOptionsGroup :=
          groupCore_partial h1 h3
        simp [CppSignatureGroup.from_schema, group_arguments, hgc]
    | true =>
        cases fargs with
        | nil => simp [restArguments, presentRoleCount, hasRole] at h1
        | cons a rest =>
            have h1' : 1 ≤ presentRoleCount rest := by
              simpa [restArguments] using h1
            have h3' : presentRoleCount rest ≤ 3 := by
              simpa [restArguments] using h3
            have hgc := groupCore_partial h1' h3'
            simp [CppSignatureGroup.from_schema, group_arguments, hgc]

/-- C1 witness: a schema with exactly two resource-options roles fails
to construct with `PartialResourceOptionsGroup`. -/
theorem cppSignatureGroup_faithful_existence_witness :
    CppSignatureGroup.from_schema exFuncPartial false =
      Except.error GroupError.PartialResourceOptionsGroup :=
  (cppSignatureGroup_faithful_existence exFuncPartial false).2 (by decide) (by decide)

/-- C2: every explicit argument of a faithful signature has no default:
`no_default` reaches every pack, including each of the four constituents
of a resource-options bundle. -/
theorem cpp_faithful_strips_all_defaults (func : FunctionSchema)
    (ga : List GroupedArgument) (a : CppArgument)
    (h : a ∈ (CppSignature.from_grouped_arguments func ga true).arguments) :
    a.default = none := by
  have h' : ∃ g ∈ ga, a ∈ ((cppArgumentFaithful g).no_default).explicit_arguments := by
    simpa [CppSignature.from_grouped_arguments, CppSignature.arguments,
      List.mem_flatten, List.mem_map, List.map_map] using h
  obtain ⟨g, hg, hag⟩ := h'
  cases g with
  | arg b =>
      simp [cppArgumentFaithful, CppArgumentPack.no_default,
        CppArgumentPack.explicit_arguments, CppArgument.no_default] at hag
      subst hag
      rfl
  | thisArg t =>
      simp [cppArgumentFaithful, CppArgumentPack.no_default,
        CppArgumentPack.explicit_arguments] at hag
  | options t =>
      simp [cppArgumentFaithful, CppArgumentPack.no_default,
        CppArgumentPack.explicit_arguments, CppArgument.no_default] at hag
      rcases hag with h1 | h1 | h1 | h1 <;> subst h1 <;> rfl

/-- C2 witness at a concrete one-argument grouped sequence. -/
theorem cpp_faithful_strips_all_defaults_witness :
    (cppArgumentOfPlain exArgBool).no_default ∈
      (CppSignature.from_grouped_arguments exFuncBool
        [GroupedArgument.arg exArgBool] true).arguments ∧
    ((cppArgumentOfPlain exArgBool).no_default).default = none :=
  ⟨by decide,
   cpp_faithful_strips_all_defaults exFuncBool [GroupedArgument.arg exArgBool] _ (by decide)⟩

/-- C3: the receiver pack contributes no explicit argument, so it
changes nothing in `arguments`, `decl` or `defn`; and the receiver (the
first argument of a method schema) appears under its own name and type
among the dispatcher's and the native surface's arguments. -/
theorem receiver_elision (func : FunctionSchema) (a : Argument) (rest : List Argument)
    (h : func.arguments = a :: rest) :
    (∀ (t : ThisArgument) (ty : String),
        (CppArgumentPack.thisP t ty).explicit_arguments = []) ∧
    (∀ (f : FunctionSchema) (rt : String) (pre post : List CppArgumentPack)
        (t : ThisArgument) (ty : String),
        (CppSignature.mk f (pre ++ CppArgumentPack.thisP t ty :: post) rt).arguments =
          (CppSignature.mk f (pre ++ post) rt).arguments ∧
        (CppSignature.mk f (pre ++ CppArgumentPack.thisP t ty :: post) rt).decl =
          (CppSignature.mk f (pre ++ post) rt).decl ∧
        ∀ nm pfx,
          (CppSignature.mk f (pre ++ CppArgumentPack.thisP t ty :: post) rt).defn nm pfx =
            (CppSignature.mk f (pre ++ post) rt).defn nm pfx) ∧
    (∃ da ∈ (DispatcherSignature.from_schema func).arguments,
        da.name = a.name ∧ da.type = a.type) ∧
    (∃ na ∈ (NativeSignature.from_schema func).arguments,
        na.name = a.name ∧ na.type = a.type) := by
  refine ⟨fun t ty => rfl, ?_, ?_, ?_⟩
  · intro f rt pre post t ty
    have harg : (CppSignature.mk f (pre ++ CppArgumentPack.thisP t ty :: post) rt).arguments =
        (CppSignature.mk f (pre ++ post) rt).arguments := by
      simp [CppSignature.arguments, CppArgumentPack.explicit_arguments]
    exact ⟨harg, by simp only [CppSignature.decl, harg],
      fun nm pfx => by simp only [CppSignature.defn, harg]⟩
  · refine ⟨{ type := a.type, name := a.name, argument := .inl a }, ?_, rfl, rfl⟩
    simp [DispatcherSignature.from_schema, dispatcherArguments, h]
  · refine ⟨{ type := a.type, name := a.name, default := a.default, argument := .inl a }, ?_, rfl, rfl⟩
    simp [NativeSignature.from_schema, nativeArguments, h]

/-- C3 witness at a concrete method schema. -/
theorem receiver_elision_witness :
    (∃ da ∈ (DispatcherSignature.from_schema exFuncMethod).arguments,
        da.name = "self" ∧ da.type = "Value") ∧
    (∃ na ∈ (NativeSignature.from_schema exFuncMethod).arguments,
        na.name = "self" ∧ na.type = "Value") :=
  ⟨(receiver_elision exFuncMethod
      { name := "self", type := "Value", default := none, role := .plain } _ rfl).2.2.1,
   (receiver_elision exFuncMethod
      { name := "self", type := "Value", default := none, role := .plain } _ rfl).2.2.2⟩

/-- C4 fails as stated: on a schema whose four arguments are exactly
the four resource-options roles, the default front signature's one
explicit argument is the composite `options`, whose name appears
nowhere among the native surface's argument names. -/
theorem front_native_set_counterexample :
    (CppSignatureGroup.from_schema exFuncOpts false).map
        (fun g => g.signature.arguments.map (fun x => x.name)) =
      Except.ok ["options"] ∧
    "options" ∉ (NativeSignature.from_schema exFuncOpts).arguments.map (fun x => x.name) :=
  ⟨rfl, by decide⟩

/-- C4 amended: the front surface's explicit (name, type) pairs plus
the receiver's are a permutation of the native surface's — with the
default signature when no resource-options role is present, and with
the faithful signature when all four are present (the default signature
then carries the composite `options` argument instead of the four
constituents). -/
theorem front_native_set_amended (func : FunctionSchema) (method : Bool)
    (g : CppSignatureGroup)
    (hok : CppSignatureGroup.from_schema func method = Except.ok g) :
    (presentRoleCount (restArguments func method) = 0 →
      (g.signature.arguments.map (fun x => (x.name, x.type)) ++
          recvList func method).Perm
        ((NativeSignature.from_schema func).arguments.map (fun x => (x.name, x.type)))) ∧
    (presentRoleCount (restArguments func method) = 4 →
      ∃ fs, g.faithful_signature = some fs ∧
        (fs.arguments.map (fun x => (x.name, x.type)) ++
            recvList func method).Perm
          ((NativeSignature.from_schema func).arguments.map
            (fun x => (x.name, x.type)))) := by
  obtain ⟨fname, fargs, frets⟩ := func
  cases method with
  | false =>
      cases hgc : groupCore fargs with
      | error e =>
          have hga : group_arguments ⟨fname, fargs, frets⟩ false = .error e := hgc
          simp [CppSignatureGroup.from_schema, hga] at hok
      | ok ga =>
          have hga : group_arguments ⟨fname, fargs, frets⟩ false = .ok ga := hgc
          simp only [CppSignatureGroup.from_schema, hga, Except.ok.injEq] at hok
          subst hok
          constructor
          · intro hc0
            obtain ⟨hd, hl, hdv, hp⟩ :=
              count_zero (show presentRoleCount fargs = 0 from hc0)
            rw [groupCore_of_all_none hd hl hdv hp] at hgc
            injection hgc with hgc
            subst hgc
            dsimp only
            rw [default_args_of_map_arg]
            simp only [List.map_map, NativeSignature.from_schema, nativeArguments,
              recvList_false, List.append_nil]
            exact List.Perm.refl _
          · intro hc4
            obtain ⟨h1, h2, h3, h4⟩ :=
              count_four (show presentRoleCount fargs = 4 from hc4)
            rw [Option.isSome_iff_exists] at h1 h2 h3 h4
            obtain ⟨d, hd⟩ := h1
            obtain ⟨l, hl⟩ := h2
            obtain ⟨dv, hdv⟩ := h3
            obtain ⟨p, hp⟩ := h4
            rw [groupCore_of_all_some hd hl hdv hp] at hgc
            injection hgc with hgc
            subst hgc
            dsimp only
            have hany : ((eraseRoles fargs).map GroupedArgument.arg ++
                [GroupedArgument.options ⟨d, l, dv, p⟩]).any GroupedArgument.isOptions
                  = true := by
              simp [GroupedArgument.isOptions]
            refine ⟨_, by rw [if_pos hany], ?_⟩
            rw [faithful_args_of_map_arg]
            simp only [List.map_append, List.map_map, List.map_cons, List.map_nil,
              NativeSignature.from_schema, nativeArguments, recvList_false, List.append_nil]
            have hperm := (perm_roles fargs d l dv p hd hl hdv hp).map
              (fun x : Argument => (x.name, x.type))
            simp only [List.map_cons] at hperm
            exact List.perm_append_comm.trans hperm.symm
  | true =>
      cases fargs with
      | nil => simp [CppSignatureGroup.from_schema, group_arguments] at hok
      | cons a rest =>
          cases hgc : groupCore rest with
          | error e =>
              have hga : group_arguments ⟨fname, a :: rest, frets⟩ true = .error e := by
                simp [group_arguments, hgc]
              simp [CppSignatureGroup.from_schema, hga] at hok
          | ok gs =>
              have hga : group_arguments ⟨fname, a :: rest, frets⟩ true =
                  .ok (GroupedArgument.thisArg ⟨a⟩ :: gs) := by
                simp [group_arguments, hgc]
              simp only [CppSignatureGroup.from_schema, hga, Except.ok.injEq] at hok
              subst hok
              constructor
              · intro hc0
                have hc0' : presentRoleCount rest = 0 := by
                  simpa [restArguments] using hc0
                obtain ⟨hd, hl, hdv, hp⟩ := count_zero hc0'
                rw [groupCore_of_all_none hd hl hdv hp] at hgc
                injection hgc with hgc
                subst hgc
                dsimp only
                rw [from_grouped_this_cons, default_args_of_map_arg]
                simp only [List.map_map, NativeSignature.from_schema, nativeArguments,
                  recvList_true_cons, List.map_cons]
                exact List.perm_append_comm
              · intro hc4
                have hc4' : presentRoleCount rest = 4 := by
                  simpa [restArguments] using hc4
                obtain ⟨h1, h2, h3, h4⟩ := count_four hc4'
                rw [Option.isSome_iff_exists] at h1 h2 h3 h4
                obtain ⟨d, hd⟩ := h1
                obtain ⟨l, hl⟩ := h2
                obtain ⟨dv, hdv⟩ := h3
                obtain ⟨p, hp⟩ := h4
                rw [groupCore_of_all_some hd hl hdv hp] at hgc
                injection hgc with hgc
                subst hgc
                dsimp only
                have hany : (GroupedArgument.thisArg ⟨a⟩ :: ((eraseRoles rest).map
                    GroupedArgument.arg ++ [GroupedArgument.options ⟨d, l, dv, p⟩])).any
                      GroupedArgument.isOptions = true := by
                  simp [GroupedArgument.isOptions]
                refine ⟨_, by rw [if_pos hany], ?_⟩
                rw [from_grouped_this_cons, faithful_args_of_map_arg]
                simp only [List.map_append, List.map_map, List.map_cons, List.map_nil,
                  NativeSignature.from_schema, nativeArguments, recvList_true_cons]
                have hperm := (perm_roles rest d l dv p hd hl hdv hp).map
                  (fun x : Argument => (x.name, x.type))
                simp only [List.map_cons] at hperm
                refine List.Perm.trans List.perm_append_comm ?_
                show ((a.name, a.type) ::
                    (List.map (fun x => (x.name, x.type)) (eraseRoles rest) ++
                      [(d.name, d.type), (l.name, l.type), (dv.name, dv.type),
                       (p.name, p.type)])).Perm
                  ((a.name, a.type) :: List.map (fun x => (x.name, x.type)) rest)
                exact (List.perm_append_comm.trans hperm.symm).cons _

/-- C4 amended witness at a schema with zero roles present. -/
theorem front_native_set_amended_witness :
    (exGroupBool.signature.arguments.map (fun x => (x.name, x.type)) ++
        recvList exFuncBool false).Perm
      ((NativeSignature.from_schema exFuncBool).arguments.map
        (fun x => (x.name, x.type))) :=
  (front_native_set_amended exFuncBool false exGroupBool (by rfl)).1 (by decide)

/-- C9: `CppArgument.no_default` returns a value whose default is gone
while type, name and source back-reference are unchanged, and it is
idempotent. -/
theorem cppArgument_no_default_frame (a : CppArgument) :
    a.no_default.type = a.type ∧ a.no_default.name = a.name ∧
    a.no_default.default = none ∧ a.no_default.argument = a.argument ∧
    a.no_default.no_default = a.no_default :=
  ⟨rfl, rfl, rfl, rfl, rfl⟩

/-- C5: a `DispatcherArgument` renders as `<type> <name>` with no
default part, and `DispatcherSignature.defn` joins exactly these
default-free renderings, for an explicit name and for the
schema-derived one alike. -/
theorem dispatcher_never_renders_default (a : DispatcherArgument)
    (s : DispatcherSignature) (n : String) :
    a.str = a.type ++ " " ++ a.name ∧
    s.defn (some n) = s.returns_type ++ " " ++ n ++ "(" ++
      String.intercalate ", " (s.arguments.map (fun x => x.type ++ " " ++ x.name)) ++ ")" ∧
    s.defn none = s.returns_type ++ " " ++ nativeName s.func ++ "(" ++
      String.intercalate ", " (s.arguments.map (fun x => x.type ++ " " ++ x.name)) ++ ")" :=
  ⟨rfl, rfl, rfl⟩

/-- C6: `CppSignature.decl` renders the defaulted parameter list
(`=<default>` omitted exactly when the argument has none), and
`CppSignature.defn` renders the same parameter list with every default
omitted, substituting an explicit name or prepending the prefix string
to the schema-derived name. -/
theorem cpp_decl_defn_render (s : CppSignature) (n p : String) :
    s.decl = s.returns_type ++ " " ++ cppName s.func ++ "(" ++
      String.intercalate ", " (s.arguments.map CppArgument.str) ++ ")" ∧
    (∀ a : CppArgument, a.str = a.type ++ " " ++ a.name ++ mbDefault a.default) ∧
    (∀ d : String, mbDefault (some d) = "=" ++ d) ∧
    mbDefault none = "" ∧
    (∀ a : CppArgument, a.str_no_default = a.no_default.str) ∧
    s.defn none "" = s.returns_type ++ " " ++ cppName s.func ++ "(" ++
      String.intercalate ", " (s.arguments.map (fun a => a.no_default.str)) ++ ")" ∧
    s.defn (some n) p = s.returns_type ++ " " ++ n ++ "(" ++
      String.intercalate ", " (s.arguments.map (fun a => a.no_default.str)) ++ ")" ∧
    s.defn none p = s.returns_type ++ " " ++ (p ++ cppName s.func) ++ "(" ++
      String.intercalate ", " (s.arguments.map (fun a => a.no_default.str)) ++ ")" := by
  have hstr : ∀ a : CppArgument, a.str_no_default = a.no_default.str := by
    intro a
    simp [CppArgument.str_no_default, CppArgument.no_default, CppArgument.str, mbDefault]
  refine ⟨rfl, fun a => rfl, fun d => rfl, rfl, hstr, ?_, ?_, ?_⟩
  all_goals simp only [CppSignature.defn, funext hstr]
  all_goals rfl

/-- C10: when `CppSignature.defn` is given an explicit name, the prefix
string has no effect and the explicit name is used verbatim; the prefix
is applied only when no name is given. -/
theorem cpp_defn_name_overrides_prefix (s : CppSignature) (n p q : String) :
    s.defn (some n) p = s.defn (some n) q ∧
    s.defn (some n) p = s.returns_type ++ " " ++ n ++ "(" ++
      String.intercalate ", " (s.arguments.map CppArgument.str_no_default) ++ ")" ∧
    s.defn none p = s.returns_type ++ " " ++ (p ++ cppName s.func) ++ "(" ++
      String.intercalate ", " (s.arguments.map CppArgument.str_no_default) ++ ")" :=
  ⟨rfl, rfl, rfl⟩

/-- C7 fails as stated: on a one-argument schema, the dispatcher
function-type descriptor is `int (bool)` — a space separates the
returns type from the parenthesized argument types — not `int(bool)`. -/
theorem dispatcher_type_counterexample :
    (DispatcherSignature.from_schema exFuncBool).type = "int (bool)" ∧
    ¬ ((DispatcherSignature.from_schema exFuncBool).type =
      (DispatcherSignature.from_schema exFuncBool).returns_type ++ "(" ++
      String.intercalate ", "
        ((DispatcherSignature.from_schema exFuncBool).arguments.map
          (fun a => a.type)) ++ ")") := by
  constructor
  · rfl
  · decide

/-- C7 amended: `DispatcherSignature.type` renders the returns type, a
space, then the parenthesized comma-separated argument types. -/
theorem dispatcher_type_renders (s : DispatcherSignature) :
    s.type = s.returns_type ++ " (" ++
      String.intercalate ", " (s.arguments.map (fun a => a.type)) ++ ")" := rfl

/-- C8: a `NativeArgument` retains its stored default and renders both
without it (`str`, used by `defn`) and with it attached
(`str_with_default`); `NativeSignature.from_schema` keeps every schema
argument's original default, name and type. -/
theorem native_defn_both_forms (a : NativeArgument) (s : NativeSignature)
    (n : String) (func : FunctionSchema) :
    a.str = a.type ++ " " ++ a.name ∧
    a.str_with_default = a.str ++ mbDefault a.default ∧
    (∀ d : String, a.default = some d → a.str_with_default = a.str ++ "=" ++ d) ∧
    s.defn (some n) = s.returns_type ++ " " ++ n ++ "(" ++
      String.intercalate ", " (s.arguments.map NativeArgument.str) ++ ")" ∧
    s.defn none = s.returns_type ++ " " ++ dispatcherName s.func ++ "(" ++
      String.intercalate ", " (s.arguments.map NativeArgument.str) ++ ")" ∧
    (NativeSignature.from_schema func).arguments.map (fun x => x.default) =
      func.arguments.map (fun x => x.default) ∧
    (NativeSignature.from_schema func).arguments.map (fun x => (x.name, x.type)) =
      func.arguments.map (fun x => (x.name, x.type)) := by
  refine ⟨rfl, rfl, ?_, rfl, rfl, ?_, ?_⟩
  · intro d hd
    simp [NativeArgument.str_with_default, NativeArgument.str, mbDefault, hd,
      String.append_assoc]
  · rw [NativeSignature.from_schema]
    simp only [nativeArguments, List.map_map]
    rfl
  · rw [NativeSignature.from_schema]
    simp only [nativeArguments, List.map_map]
    rfl

end Codegen
